import Mathlib

/-!
# Verification of the note-analysis extraction/cleaning/chunking/retrieval pipeline

Shallow embedding of the core operations of the `note-analysis` repository:

* the character-offset overlapping chunker `chunkText`
  (scripts `ingest-sample-notes` / `process-note-text`),
* the text sanitizer `cleanAndValidateText` and the FHIR extractor
  `extractNotesDataFromFHIR` (script `extract-and-clean-to-text.js`),
* the library extractor `extractClinicalNotesFromFHIR` (`lib/fhir-extraction`),
* the embedding gateways `getEmbedding` (ingestion scripts) and
  `SupabaseVectorDB.createEmbedding` (`lib/supabase-vector`),
* the similarity search wrapper `SupabaseVectorDB.searchSimilarNotes` and the
  SQL function `search_clinical_notes`.

JavaScript strings are modelled as `String`/`List Char`; `null`/`undefined`
values as `Option`; the external embedding provider and the vector store are
modelled by explicit inputs (the provider's successive responses, the stored
row set).  Regex replacements are embedded as deterministic scanners that
reproduce the JS regex-engine behaviour on the concrete patterns used by the
source (each pattern is simple enough that backtracking collapses to a single
deterministic scan; this is argued rule by rule in the doc comments).
-/

namespace NoteAnalysis

/-- Whitespace test modelling the JavaScript `\s` class / `String.prototype.trim`
on the ASCII range (space, tab, newline, carriage return, vertical tab,
form feed).  All texts handled by the claims are ASCII. -/
def isWS (c : Char) : Bool :=
  c == ' ' || c == '\t' || c == '\n' || c == '\r' || c == '\x0b' || c == '\x0c'

/-! ## Chunker

Source (`scripts` `ingest-sample-notes` / `process-note-text`, function
`chunkText`):

```js
function chunkText(text, size, overlap) {
  const chunks = [];
  let i = 0;
  while (i < text.length) {
    const start = i;
    const end = Math.min(i + size, text.length);
    chunks.push(text.substring(start, end));
    i += size - overlap;
    if (i + overlap >= text.length) {
      break; // Stop if the next chunk would be mostly overlap
    }
  }
  return chunks;
}
```

`text.substring(i, min(i+size, len))` is `(text.drop i).take size`.  The loop
is embedded with an explicit fuel argument (the loop advances `i` by
`size - overlap ≥ 1` per iteration whenever `overlap < size`, so fuel
`text.length` is always sufficient; the fuel-exhausted branch is unreachable
under the claims' precondition `overlap < size`). -/
def chunkLoop (text : List Char) (size overlap : Nat) : Nat → Nat → List (List Char)
  | 0, _ => []
  | fuel + 1, i =>
    if i < text.length then
      let c := (text.drop i).take size
      let j := i + (size - overlap)
      if text.length ≤ j + overlap then [c]
      else c :: chunkLoop text size overlap fuel j
    else []

/-- `chunkText text size overlap` : the list of emitted chunks, in emission
order (JS strings as `List Char`). -/
def chunkText (text : List Char) (size overlap : Nat) : List (List Char) :=
  chunkLoop text size overlap text.length 0

/-- The ingestion loop (`for (let i = 0; i < chunks.length; i++) … chunk_index: i`)
pairs each chunk with its emission index. -/
def chunkRecords (text : List Char) (size overlap : Nat) : List (Nat × List Char) :=
  (chunkText text size overlap).enum

/-- Normal form of the chunk loop: starting at a valid offset `i` with enough
fuel, the emitted chunks are exactly the substrings of length (at most) `size`
at offsets `i, i + step, i + 2·step, …` where `step = size - overlap`; the
last offset is the first one from which the chunk reaches the end of the text,
and every earlier offset leaves strictly more than `size` characters. -/
theorem chunkLoop_spec (text : List Char) (size overlap : Nat) (hso : overlap < size) :
    ∀ fuel i, i < text.length → text.length ≤ i + fuel →
    ∃ n, 0 < n ∧
      chunkLoop text size overlap fuel i =
        (List.range n).map (fun k => (text.drop (i + k * (size - overlap))).take size) ∧
      (∀ k, k < n → i + k * (size - overlap) < text.length) ∧
      text.length ≤ i + (n - 1) * (size - overlap) + size ∧
      (∀ k, k + 1 < n → i + k * (size - overlap) + size < text.length) := by
  intro fuel
  induction fuel with
  | zero => intro i hi hfuel; omega
  | succ fuel ih =>
    intro i hi hfuel
    by_cases hbrk : text.length ≤ i + (size - overlap) + overlap
    · refine ⟨1, Nat.one_pos, ?_, ?_, ?_, ?_⟩
      · simp only [chunkLoop, if_pos hi, if_pos hbrk]
        simp [List.range_succ]
      · intro k hk
        interval_cases k
        simpa using hi
      · simpa using by omega
      · intro k hk; omega
    · push_neg at hbrk
      have hj : i + (size - overlap) < text.length := by omega
      have hfuel' : text.length ≤ i + (size - overlap) + fuel := by omega
      obtain ⟨n, hn, heq, hlt, hlast, hfull⟩ := ih (i + (size - overlap)) hj hfuel'
      refine ⟨n + 1, Nat.succ_pos n, ?_, ?_, ?_, ?_⟩
      · have : chunkLoop text size overlap (fuel + 1) i =
            (text.drop i).take size :: chunkLoop text size overlap fuel (i + (size - overlap)) := by
          simp only [chunkLoop, if_pos hi]
          rw [if_neg (by omega)]
        rw [this, heq, List.range_succ_eq_map, List.map_cons, List.map_map]
        congr 1
        · simp
        · apply List.map_congr_left
          intro k _
          have : i + (k + 1) * (size - overlap) = i + (size - overlap) + k * (size - overlap) := by
            rw [Nat.succ_mul]; omega
          simp [Function.comp, this]
      · intro k hk
        cases k with
        | zero => simpa using hi
        | succ k =>
          have := hlt k (by omega)
          have hs : i + (k + 1) * (size - overlap) = i + (size - overlap) + k * (size - overlap) := by
            rw [Nat.succ_mul]; omega
          omega
      · have hs : i + (n + 1 - 1) * (size - overlap) =
            i + (size - overlap) + (n - 1) * (size - overlap) := by
          have : n + 1 - 1 = (n - 1) + 1 := by omega
          rw [this, Nat.succ_mul]; omega
        omega
      · intro k hk
        cases k with
        | zero =>
          simpa using by omega
        | succ k =>
          have := hfull k (by omega)
          have hs : i + (k + 1) * (size - overlap) = i + (size - overlap) + k * (size - overlap) := by
            rw [Nat.succ_mul]; omega
          omega

/-- Top-level normal form of `chunkText` for non-empty text and
`overlap < size`. -/
theorem chunkText_spec (text : List Char) (size overlap : Nat) (hso : overlap < size)
    (hne : text ≠ []) :
    ∃ n, 0 < n ∧
      chunkText text size overlap =
        (List.range n).map (fun k => (text.drop (k * (size - overlap))).take size) ∧
      (∀ k, k < n → k * (size - overlap) < text.length) ∧
      text.length ≤ (n - 1) * (size - overlap) + size ∧
      (∀ k, k + 1 < n → k * (size - overlap) + size < text.length) := by
  have hlen : 0 < text.length := List.length_pos.mpr hne
  obtain ⟨n, hn, heq, hlt, hlast, hfull⟩ :=
    chunkLoop_spec text size overlap hso text.length 0 hlen (by omega)
  exact ⟨n, hn, by simpa using heq, by simpa using hlt, by simpa using hlast,
    by simpa using hfull⟩

/-- **C1.** For every non-empty text and chunk parameters with
`size > overlap ≥ 0`, the chunker emits at least one chunk, the union of the
emitted chunk spans (the `k`-th chunk occupies offsets
`[k·(size-overlap), k·(size-overlap) + length)`) covers the text from offset
`0` to at least `length(text) - overlap`, and the chunk indices assigned by
the ingestion loop are exactly `0..n-1` in emission order with no gaps. -/
theorem chunkText_emits_covers_and_indexes (text : List Char) (size overlap : Nat)
    (hso : overlap < size) (hne : text ≠ []) :
    chunkText text size overlap ≠ [] ∧
    (∀ p, p < text.length - overlap →
      ∃ k, ∃ hk : k < (chunkText text size overlap).length,
        k * (size - overlap) ≤ p ∧
        p < k * (size - overlap) + ((chunkText text size overlap).get ⟨k, hk⟩).length) ∧
    (chunkRecords text size overlap).map Prod.fst =
      List.range (chunkText text size overlap).length := by
  obtain ⟨n, hn, hchunks, hlt, hlast, hfull⟩ := chunkText_spec text size overlap hso hne
  have hstep : 0 < size - overlap := by omega
  have hlen : (chunkText text size overlap).length = n := by rw [hchunks]; simp
  have hget : ∀ (k : Nat) (hk : k < (chunkText text size overlap).length),
      (chunkText text size overlap).get ⟨k, hk⟩ =
        (text.drop (k * (size - overlap))).take size := by
    intro k hk
    have hk' : k < n := hlen ▸ hk
    rw [List.get_eq_getElem]
    conv in chunkText text size overlap => rw [hchunks]
    rw [List.getElem_map, List.getElem_range]
  refine ⟨?_, ?_, ?_⟩
  · intro h
    rw [h] at hlen
    simp at hlen
    omega
  · intro p hp
    have hpL : p < text.length := by omega
    by_cases hq : p / (size - overlap) < n
    · refine ⟨p / (size - overlap), by omega, Nat.div_mul_le_self p _, ?_⟩
      rw [hget]
      have hdm := Nat.div_add_mod p (size - overlap)
      have hmod := Nat.mod_lt p hstep
      have hc : (size - overlap) * (p / (size - overlap)) =
          (p / (size - overlap)) * (size - overlap) := Nat.mul_comm _ _
      rw [List.length_take, List.length_drop]
      rcases Nat.le_total size (text.length - p / (size - overlap) * (size - overlap)) with h | h
      · rw [Nat.min_eq_left h]; omega
      · rw [Nat.min_eq_right h]; omega
    · refine ⟨n - 1, by omega, ?_, ?_⟩
      · have h1 : (n - 1) * (size - overlap) ≤ (p / (size - overlap)) * (size - overlap) :=
          Nat.mul_le_mul_right _ (by omega)
        have h2 : (p / (size - overlap)) * (size - overlap) ≤ p := Nat.div_mul_le_self p _
        omega
      · rw [hget]
        have h3 := hlt (n - 1) (by omega)
        rw [List.length_take, List.length_drop]
        have h4 : text.length - (n - 1) * (size - overlap) ≤ size := by omega
        rw [Nat.min_eq_right h4]
        omega
  · simp [chunkRecords]

/-- Witness for C1 at `text = "abcdefghij"`, `size = 4`, `overlap = 1`. -/
theorem chunkText_emits_covers_and_indexes_witness :
    chunkText "abcdefghij".data 4 1 ≠ [] ∧
    (∀ p, p < "abcdefghij".data.length - 1 →
      ∃ k, ∃ hk : k < (chunkText "abcdefghij".data 4 1).length,
        k * (4 - 1) ≤ p ∧
        p < k * (4 - 1) + ((chunkText "abcdefghij".data 4 1).get ⟨k, hk⟩).length) ∧
    (chunkRecords "abcdefghij".data 4 1).map Prod.fst =
      List.range (chunkText "abcdefghij".data 4 1).length :=
  chunkText_emits_covers_and_indexes "abcdefghij".data 4 1 (by decide) (by decide)

/-- **C10.** For every non-empty text and parameters with `size > overlap ≥ 0`,
every emitted chunk has length at most `size`, and every emitted chunk except
the last has length exactly `size`. -/
theorem chunkText_chunk_lengths (text : List Char) (size overlap : Nat)
    (hso : overlap < size) (hne : text ≠ []) :
    (∀ c ∈ chunkText text size overlap, c.length ≤ size) ∧
    (∀ k, ∀ hk : k + 1 < (chunkText text size overlap).length,
      ((chunkText text size overlap).get ⟨k, by omega⟩).length = size) := by
  obtain ⟨n, hn, hchunks, hlt, hlast, hfull⟩ := chunkText_spec text size overlap hso hne
  have hlen : (chunkText text size overlap).length = n := by rw [hchunks]; simp
  have hget : ∀ (k : Nat) (hk : k < (chunkText text size overlap).length),
      (chunkText text size overlap).get ⟨k, hk⟩ =
        (text.drop (k * (size - overlap))).take size := by
    intro k hk
    rw [List.get_eq_getElem]
    conv in chunkText text size overlap => rw [hchunks]
    rw [List.getElem_map, List.getElem_range]
  refine ⟨?_, ?_⟩
  · intro c hc
    rw [hchunks] at hc
    obtain ⟨k, hk, rfl⟩ := List.mem_map.mp hc
    rw [List.length_take]
    exact Nat.min_le_left _ _
  · intro k hk
    rw [hget]
    have hfk := hfull k (by omega)
    rw [List.length_take, List.length_drop]
    have : size ≤ text.length - k * (size - overlap) := by omega
    rw [Nat.min_eq_left this]

/-- Witness for C10 at `text = "abcdefghij"`, `size = 4`, `overlap = 1`. -/
theorem chunkText_chunk_lengths_witness :
    (∀ c ∈ chunkText "abcdefghij".data 4 1, c.length ≤ 4) ∧
    (∀ k, ∀ hk : k + 1 < (chunkText "abcdefghij".data 4 1).length,
      ((chunkText "abcdefghij".data 4 1).get ⟨k, by omega⟩).length = 4) :=
  chunkText_chunk_lengths "abcdefghij".data 4 1 (by decide) (by decide)

/-! ## Text sanitizer

Source: `scripts/extract-and-clean-to-text.js`, function `cleanAndValidateText`
(the "FINAL ROBUST VERSION (v3)" of the sanitizer; the spec's stage list —
AI preambles and commentary, disclaimers, bracketed placeholders,
meta-instructions, markdown tokens, empty-field patterns, exact junk
sentences — is this function's rule chain).

Each JS `String.replace(regex, ' ')` call is embedded as a deterministic
left-to-right scan.  Every pattern used by the source is backtracking-free in
the following sense: character classes never contain the character that must
follow them (`[^\]]` before `\]`, `[^)]` before `\)`, `[\w\s()]` before `:`,
`\s` before `\.`), and lazy `[\s\S]*?` runs up to a closing character not
matched by anything shorter, so the JS engine's match at a given position is
unique and the whole `/g` replacement is a single non-overlapping scan. -/

/-- Case-insensitive (JS `/i`) or exact character comparison. -/
def chEq (ci : Bool) (a b : Char) : Bool :=
  if ci then a.toLower == b.toLower else a == b

/-- `isPrefixCI ci lit s` : the literal `lit` matches at the start of `s`. -/
def isPrefixCI (ci : Bool) : List Char → List Char → Bool
  | [], _ => true
  | _ :: _, [] => false
  | a :: as, b :: bs => chEq ci a b && isPrefixCI ci as bs

/-- `containsLit ci lit s` : `lit` occurs somewhere in `s`
(JS `String.prototype.includes` when `ci = false`). -/
def containsLit (ci : Bool) (lit : List Char) : List Char → Bool
  | [] => isPrefixCI ci lit []
  | c :: rest => isPrefixCI ci lit (c :: rest) || containsLit ci lit rest

/-- Generic `/g` replacement scan: at each position try the matcher `m`; on a
match of `n + 1` characters output a single `' '` and resume after the match
(JS resumes after the replaced slice), otherwise keep the character and
advance one position.  The fuel argument makes the recursion structural; fuel
`s.length` is always sufficient because every step consumes at least one
character. -/
def scanReplaceF (m : List Char → Option Nat) : Nat → List Char → List Char
  | 0, _ => []
  | _ + 1, [] => []
  | fuel + 1, c :: rest =>
    match m (c :: rest) with
    | some n => ' ' :: scanReplaceF m fuel (rest.drop n)
    | none => c :: scanReplaceF m fuel rest

def scanReplace (m : List Char → Option Nat) (s : List Char) : List Char :=
  scanReplaceF m s.length s

/-- Matcher for a plain literal; yields `lit.length - 1` (consumed minus one). -/
def litMatch (ci : Bool) (lit : List Char) (s : List Char) : Option Nat :=
  if isPrefixCI ci lit s then some (lit.length - 1) else none

/-- `String.replace(/lit/g, ' ')` for a literal pattern. -/
def replaceAllLit (ci : Bool) (lit : List Char) (s : List Char) : List Char :=
  scanReplace (litMatch ci lit) s

/-- `String.replace(/lit[\s\S]*$/g, ' ')` : find the first occurrence of the
literal lead-in and replace from there to the end of the string with one
space. -/
def deleteFromLit (ci : Bool) (lit : List Char) : List Char → List Char
  | [] => []
  | c :: rest =>
    if isPrefixCI ci lit (c :: rest) then [' ']
    else c :: deleteFromLit ci lit rest

/-- Matcher for `/\[[^\]]+\]/` : an opening bracket, at least one
non-`]` character, and a closing bracket. -/
def bracketMatch (s : List Char) : Option Nat :=
  match s with
  | '[' :: rest =>
    let inside := rest.takeWhile (fun c => !(c == ']'))
    if inside.isEmpty then none
    else if inside.length < rest.length then some (inside.length + 1)
    else none
  | _ => none

/-- Matcher for `/pre[^bad]{min…}close/` : a literal prefix, a run of
characters other than `bad` (required non-empty when `minOne`), then a literal
closing sequence beginning with `bad`.  This also covers the lazy
`pre[\s\S]*?\)` pattern (`minOne = false`): the lazy run extends exactly to
the first `)` after the prefix. -/
def delimMatch (ci : Bool) (pre : List Char) (bad : Char) (close : List Char)
    (minOne : Bool) (s : List Char) : Option Nat :=
  if isPrefixCI ci pre s then
    let rest := s.drop pre.length
    let mid := rest.takeWhile (fun c => !(c == bad))
    if minOne && mid.isEmpty then none
    else if isPrefixCI ci close (rest.drop mid.length) then
      some (pre.length + mid.length + close.length - 1)
    else none
  else none

/-- The markdown-token alternation `(\*\*|__|\*|_|---|===|###)`, tried in the
JS alternation order (first match wins). -/
def mdTokens : List (List Char) :=
  ["**".data, "__".data, "*".data, "_".data, "---".data, "===".data, "###".data]

def mdMatch (s : List Char) : Option Nat :=
  (mdTokens.find? (fun t => isPrefixCI false t s)).map (fun t => t.length - 1)

/-- ASCII letter: `[A-Z]` under the `/i` flag. -/
def isAsciiLetter (c : Char) : Bool := c.isAlpha

/-- JS `\w` (ASCII range). -/
def isWordChar (c : Char) : Bool := isAsciiLetter c || c.isDigit || c == '_'

/-- The class `[\w\s\(\)]` of the empty-field pattern. -/
def isLabelChar (c : Char) : Bool := isWordChar c || isWS c || c == '(' || c == ')'

/-- Matcher for `/([A-Z][\w\s\(\)]+):\s*tail/im` : a letter, a non-empty run
of label characters (which necessarily stops at the first `:`), the colon,
optional whitespace (necessarily the maximal run), then the literal tail
(`.` for the empty-field rule, `Vital Signs: .` for its variant). -/
def labelColonMatch (tailLit : List Char) (s : List Char) : Option Nat :=
  match s with
  | c :: rest =>
    if isAsciiLetter c then
      let run := rest.takeWhile isLabelChar
      if run.isEmpty then none
      else
        match rest.drop run.length with
        | ':' :: r2 =>
          let ws := r2.takeWhile isWS
          if isPrefixCI true tailLit (r2.drop ws.length) then
            some (1 + run.length + 1 + ws.length + tailLit.length - 1)
          else none
        | _ => none
    else none
  | [] => none

/-- Lead-ins of `/^(Okay, here is|Certainly![\s\S]*?Below is) a medical note[\s\S]*/gim`. -/
def okayLit : List Char := "Okay, here is a medical note".data

def certainlyLit : List Char := "Certainly!".data

def belowLit : List Char := "Below is a medical note".data

/-- The AI-preamble alternation matches at position `p` iff the text at `p`
starts with "Okay, here is a medical note" (case-insensitively), or starts
with "Certainly!" and contains "Below is a medical note" afterwards (the lazy
run extends to the first such occurrence). -/
def preambleAt (s : List Char) : Bool :=
  isPrefixCI true okayLit s ||
  (isPrefixCI true certainlyLit s && containsLit true belowLit (s.drop certainlyLit.length))

/-- Because the preamble pattern consumes the rest of the string, the `/gim`
replacement keeps everything before the first line start (`^` with `/m`:
offset 0 or just after a line terminator) where the alternation matches and
replaces the rest with one space. -/
def stripPreambleAux : List Char → List Char
  | [] => []
  | c :: rest =>
    if (c == '\n' || c == '\r') && preambleAt rest then [c, ' ']
    else c :: stripPreambleAux rest

def stripPreamble (s : List Char) : List Char :=
  if preambleAt s then [' '] else stripPreambleAux s

/-- `String.replace(/\s\s+/g, ' ')` : every maximal whitespace run of length
at least two becomes one space; a lone whitespace character is left as is. -/
def collapseWSF : Nat → List Char → List Char
  | 0, _ => []
  | _ + 1, [] => []
  | _ + 1, [c] => [c]
  | fuel + 1, c1 :: c2 :: rest =>
    if isWS c1 && isWS c2 then ' ' :: collapseWSF fuel (rest.dropWhile isWS)
    else c1 :: collapseWSF fuel (c2 :: rest)

/-- Removes trailing whitespace (the right half of `String.prototype.trim`). -/
def trimEnd : List Char → List Char
  | [] => []
  | c :: rest =>
    let r := trimEnd rest
    if r.isEmpty then (if isWS c then [] else [c]) else c :: r

/-- JS `String.prototype.trim`. -/
def jsTrim (s : List Char) : List Char := trimEnd (s.dropWhile isWS)

/-- Stage 4 of the sanitizer: `replace(/\s\s+/g, ' ').trim()`. -/
def normalizeWS (s : List Char) : List Char :=
  trimEnd ((collapseWSF s.length s).dropWhile isWS)

/-- Models the external Cheerio call `load(text); $('body').text()` : markup
tags are removed and text content concatenated; input without markup passes
through unchanged.  On `<` followed by a letter, `/` or `!` the tag is
skipped through the next `>`; any other `<` is ordinary text (the HTML
parser's tag-open rule).  Entity decoding is not modelled (no claim's input
contains entities). -/
def stripTagsF : Nat → List Char → List Char
  | 0, _ => []
  | _ + 1, [] => []
  | fuel + 1, c :: rest =>
    if c == '<' then
      match rest with
      | d :: _ =>
        if isAsciiLetter d || d == '/' || d == '!' then
          stripTagsF fuel ((rest.dropWhile (fun x => !(x == '>'))).drop 1)
        else c :: stripTagsF fuel rest
      | [] => [c]
    else c :: stripTagsF fuel rest

def stripMarkup (s : List Char) : List Char := stripTagsF s.length s

/-- The pure-template markers of step 2 (`templateMarkers`, checked with the
case-sensitive `String.prototype.includes`). -/
def templateMarkers : List String :=
  ["[list any specific symptoms",
   "Please provide details about:",
   "Okay, here is a medical note template for a patient",
   "The patient presents today for an encounter related to a problem for"]

/-- The exact junk sentences of lines 82–99, in source order (all `/gim`). -/
def junkPhrases : List String :=
  ["Reason for Visit: General examination of patient for .",
   "Chief Complaint: General examination for .",
   "Reason for Encounter: General examination of patient for .",
   "He reports , which may be caused by .",
   "Symptoms reported (if any) may be related to .",
   "Plan: - Advised on .",
   "The patient reports .",
   "Patient reports: .",
   "The patient reports experiencing for .",
   "The patient reports no specific complaints at this time.",
   "No specific complaints reported at this time.",
   "No specific acute complaints reported at this time.",
   "No acute complaints were reported.",
   "No acute symptoms were reported.",
   "No new symptoms or concerns.",
   "He denies any acute distress or significant changes in health status."]

/-- Step 3 of the sanitizer: the ordered artifact-removal chain (source lines
51–99), every rule substituting a single space. -/
def cleanArtifacts (t0 : List Char) : List Char :=
  let t := stripPreamble t0
  let t := deleteFromLit true "This is unusual phrasing,".data t
  let t := deleteFromLit true "Regarding Symptoms Caused by".data t
  let t := scanReplace
    (delimMatch true "(Note: Specific symptom details are pending".data ')' ")".data false) t
  let t := deleteFromLit true "Disclaimer: This note is a template".data t
  let t := deleteFromLit true "Disclaimer: This medical note is for informational purposes".data t
  let t := scanReplace bracketMatch t
  let t := scanReplace (delimMatch false "(If known, e.g., \"".data '"' "\")".data true) t
  let t := scanReplace
    (delimMatch false "(Document any relevant history, e.g., ".data ')' ")".data true) t
  let t := scanReplace (delimMatch true "(Example: ".data ')' ")".data true) t
  let t := deleteFromLit false
    "Note: This medical note is a template and should be adjusted".data t
  let t := scanReplace mdMatch t
  let t := scanReplace (labelColonMatch ".".data) t
  let t := scanReplace (labelColonMatch "Vital Signs: .".data) t
  let t := junkPhrases.foldl (fun acc p => replaceAllLit true p.data acc) t
  t

/-- The fully cleaned text of an input: markup strip, artifact chain,
whitespace normalization (the value tested by the 50-character post-clean
gate). -/
def cleanedText (text : List Char) : List Char :=
  normalizeWS (cleanArtifacts (stripMarkup text))

/-- The sanitizer `cleanAndValidateText` (`extract-and-clean-to-text.js`):
pre-length gate (< 20 after trim), Cheerio markup strip, pure-template
marker rejection, artifact chain, whitespace normalization, post-length gate
(< 50 after cleaning).  `null` returns are `none`; JS strings are `List Char`. -/
def cleanAndValidateText (text : List Char) : Option (List Char) :=
  if (jsTrim text).length < 20 then none
  else if templateMarkers.any (fun m => containsLit false m.data (stripMarkup text)) then
    none
  else if (cleanedText text).length < 50 then none
  else some (cleanedText text)

/-! ### The master-variant sanitizer

Source: `scripts/extract-clinical-notes-master.js`, function
`cleanAndValidateText` (lines 24–80).  Same staged structure as the robust
variant, but with different template markers (no AI-preamble marker, and the
"This medical note is a template" marker only rejects notes shorter than 200
characters), a shorter artifact chain, a case-sensitive lowercase-only
empty-field pattern, and some replacements that substitute words rather than
a space.  It returns a `{ valid, reason, text }` record. -/

/-- Generic `/g` replacement scan with an arbitrary replacement string
(the master variant replaces some patterns with `''` or with words instead of
a single space).  JS resumes scanning after the replaced slice and never
rescans the replacement. -/
def scanReplaceWithF (m : List Char → Option Nat) (rep : List Char) :
    Nat → List Char → List Char
  | 0, _ => []
  | _ + 1, [] => []
  | fuel + 1, c :: rest =>
    match m (c :: rest) with
    | some n => rep ++ scanReplaceWithF m rep fuel (rest.drop n)
    | none => c :: scanReplaceWithF m rep fuel rest

def scanReplaceWith (m : List Char → Option Nat) (rep : List Char)
    (s : List Char) : List Char :=
  scanReplaceWithF m rep s.length s

/-- `String.replace(/lit/g, rep)` for a literal pattern. -/
def replaceAllLitWith (ci : Bool) (lit rep : List Char) (s : List Char) : List Char :=
  scanReplaceWith (litMatch ci lit) rep s

/-- `String.replace(/lit[\s\S]*$/g, rep)` : replace from the first occurrence
of the literal lead-in to the end of the string with `rep`. -/
def deleteFromLitWith (ci : Bool) (lit rep : List Char) : List Char → List Char
  | [] => []
  | c :: rest =>
    if isPrefixCI ci lit (c :: rest) then rep
    else c :: deleteFromLitWith ci lit rep rest

/-- The master variant's markdown alternation `(\*\*|__|\*|_|---|===)` —
no `###` token. -/
def mdTokensMaster : List (List Char) :=
  ["**".data, "__".data, "*".data, "_".data, "---".data, "===".data]

def mdMatchMaster (s : List Char) : Option Nat :=
  (mdTokensMaster.find? (fun t => isPrefixCI false t s)).map (fun t => t.length - 1)

/-- Matcher for the master variant's `/([A-Z][a-z\s]+):\s*\./g` (no `/i`
flag): an uppercase letter, a non-empty run of lowercase letters or
whitespace (which necessarily stops at the first character outside the
class), a colon, the maximal whitespace run, then a period. -/
def labelColonMatchMaster (s : List Char) : Option Nat :=
  match s with
  | c :: rest =>
    if c.isUpper then
      let run := rest.takeWhile (fun x => x.isLower || isWS x)
      if run.isEmpty then none
      else
        match rest.drop run.length with
        | ':' :: r2 =>
          let ws := r2.takeWhile isWS
          match r2.drop ws.length with
          | '.' :: _ => some (1 + run.length + ws.length + 1)
          | _ => none
        | _ => none
    else none
  | [] => none

/-- The master variant's pure-template check (step 2, lines 33–43): the
`[list any specific symptoms` marker always rejects; the
`This medical note is a template` marker rejects only notes shorter than 200
characters. -/
def masterMarkerHit (ct : List Char) : Bool :=
  containsLit false "[list any specific symptoms".data ct ||
  (containsLit false "This medical note is a template".data ct && decide (ct.length < 200))

/-- The master variant's artifact chain (lines 45–69), in source order. -/
def cleanArtifactsMaster (t0 : List Char) : List Char :=
  let t := scanReplace bracketMatch t0
  let t := scanReplace (delimMatch false "(If known, e.g., \"".data '"' "\")".data true) t
  let t := scanReplace
    (delimMatch false "(Document any relevant history, e.g., ".data ')' ")".data true) t
  let t := deleteFromLit false "Note: This medical note is a template".data t
  let t := scanReplace mdMatchMaster t
  let t := scanReplace labelColonMatchMaster t
  let t := replaceAllLitWith false "Medical Scribe".data [] t
  let t := deleteFromLitWith false "***Provider Signature:**".data [] t
  let t := deleteFromLitWith false "***Signature:**".data [] t
  let t := replaceAllLitWith false "Reports .".data "Reports none".data t
  let t := replaceAllLitWith false "Symptoms began .".data "Symptom onset not specified".data t
  let t := replaceAllLitWith false "Duration of Symptoms: .".data "Duration not specified".data t
  t

/-- The `{ valid, reason, text }` record the master sanitizer returns. -/
structure MasterValidation where
  valid : Bool
  reason : String
  text : Option (List Char)
deriving DecidableEq

/-- `cleanAndValidateText` of `extract-clinical-notes-master.js` (named with
the `Master` suffix because the robust variant already carries the shared
source name). -/
def cleanAndValidateTextMaster (text : List Char) : MasterValidation :=
  if (jsTrim text).length < 20 then
    { valid := false, reason := "Too short", text := none }
  else
    let ct := stripMarkup text
    if masterMarkerHit ct then
      { valid := false, reason := "Pure template", text := none }
    else
      let c2 := normalizeWS (cleanArtifactsMaster ct)
      if c2.length < 50 then
        { valid := false, reason := "Too short after cleaning", text := none }
      else { valid := true, reason := "Valid", text := some c2 }

/-! ### Properties of the whitespace normalization -/

/-- `noTwoWS l` : `l` has no two adjacent whitespace characters. -/
def noTwoWS : List Char → Bool
  | [] => true
  | [_] => true
  | c1 :: c2 :: rest => !(isWS c1 && isWS c2) && noTwoWS (c2 :: rest)

theorem noTwoWS_pair {a b : Char} {l : List Char} (h : noTwoWS (a :: b :: l) = true) :
    (!(isWS a && isWS b)) = true := by
  simp only [noTwoWS, Bool.and_eq_true] at h
  exact h.1

theorem noTwoWS_tail {c : Char} {l : List Char} (h : noTwoWS (c :: l) = true) :
    noTwoWS l = true := by
  cases l with
  | nil => rfl
  | cons d r =>
    simp only [noTwoWS, Bool.and_eq_true] at h
    exact h.2

theorem dropWhile_head_false (p : Char → Bool) :
    ∀ (l : List Char) (e : Char) (t : List Char), l.dropWhile p = e :: t → p e = false := by
  intro l
  induction l with
  | nil => intro e t h; simp at h
  | cons c r ih =>
    intro e t h
    rw [List.dropWhile_cons] at h
    split at h
    · exact ih e t h
    · cases h
      rename_i hc
      simpa using hc

/-- The head of a collapsed non-empty list is either the original head or the
space substituted for a collapsed run starting with a whitespace head. -/
theorem collapseWSF_cons_head (fuel : Nat) (c : Char) (rest : List Char) (d : Char)
    (t : List Char) (h : collapseWSF fuel (c :: rest) = d :: t) :
    d = c ∨ (d = ' ' ∧ isWS c = true) := by
  cases fuel with
  | zero => simp [collapseWSF] at h
  | succ fuel =>
    cases rest with
    | nil =>
      simp only [collapseWSF] at h
      cases h
      exact Or.inl rfl
    | cons c2 r =>
      by_cases hws : (isWS c && isWS c2) = true
      · rw [show collapseWSF (fuel + 1) (c :: c2 :: r) =
            ' ' :: collapseWSF fuel (r.dropWhile isWS) by simp [collapseWSF, hws]] at h
        cases h
        refine Or.inr ⟨rfl, ?_⟩
        simp only [Bool.and_eq_true] at hws
        exact hws.1
      · rw [show collapseWSF (fuel + 1) (c :: c2 :: r) =
            c :: collapseWSF fuel (c2 :: r) by simp [collapseWSF, hws]] at h
        cases h
        exact Or.inl rfl

theorem noTwoWS_collapseWSF : ∀ (fuel : Nat) (l : List Char),
    noTwoWS (collapseWSF fuel l) = true := by
  intro fuel
  induction fuel with
  | zero => intro l; rfl
  | succ fuel ih =>
    intro l
    match l with
    | [] => rfl
    | [c] => rfl
    | c1 :: c2 :: rest =>
      by_cases hws : (isWS c1 && isWS c2) = true
      · rw [show collapseWSF (fuel + 1) (c1 :: c2 :: rest) =
            ' ' :: collapseWSF fuel (rest.dropWhile isWS) by simp [collapseWSF, hws]]
        cases hX : collapseWSF fuel (rest.dropWhile isWS) with
        | nil => rfl
        | cons d t =>
          simp only [noTwoWS, Bool.and_eq_true]
          refine ⟨?_, by rw [← hX]; exact ih _⟩
          cases hdw : rest.dropWhile isWS with
          | nil => rw [hdw] at hX; cases fuel <;> simp [collapseWSF] at hX
          | cons e t' =>
            rw [hdw] at hX
            have hews : isWS e = false := dropWhile_head_false isWS rest e t' hdw
            rcases collapseWSF_cons_head fuel e t' d t hX with rfl | ⟨rfl, hwe⟩
            · simp [hews]
            · rw [hews] at hwe; cases hwe
      · rw [show collapseWSF (fuel + 1) (c1 :: c2 :: rest) =
            c1 :: collapseWSF fuel (c2 :: rest) by simp [collapseWSF, hws]]
        cases hX : collapseWSF fuel (c2 :: rest) with
        | nil => rfl
        | cons d t =>
          simp only [noTwoWS, Bool.and_eq_true]
          refine ⟨?_, by rw [← hX]; exact ih _⟩
          rcases collapseWSF_cons_head fuel c2 rest d t hX with rfl | ⟨rfl, hw2⟩
          · cases h1 : isWS c1
            · simp [h1]
            · cases h2 : isWS d
              · simp [h2]
              · rw [h1, h2] at hws; simp at hws
          · have h1 : isWS c1 = false := by
              cases h1 : isWS c1
              · rfl
              · rw [h1, hw2] at hws; simp at hws
            simp [h1]

theorem noTwoWS_dropWhile (p : Char → Bool) :
    ∀ l : List Char, noTwoWS l = true → noTwoWS (l.dropWhile p) = true := by
  intro l
  induction l with
  | nil => intro h; exact h
  | cons c r ih =>
    intro h
    rw [List.dropWhile_cons]
    split
    · exact ih (noTwoWS_tail h)
    · exact h

theorem trimEnd_head (l : List Char) (d : Char) (t : List Char)
    (h : trimEnd l = d :: t) : ∃ t', l = d :: t' := by
  cases l with
  | nil => simp [trimEnd] at h
  | cons c r =>
    simp only [trimEnd] at h
    split at h
    · split at h
      · cases h
      · cases h; exact ⟨r, rfl⟩
    · cases h; exact ⟨r, rfl⟩

theorem noTwoWS_trimEnd : ∀ l : List Char, noTwoWS l = true → noTwoWS (trimEnd l) = true := by
  intro l
  induction l with
  | nil => intro h; exact h
  | cons c r ih =>
    intro h
    simp only [trimEnd]
    split
    · split
      · rfl
      · rfl
    · cases htr : trimEnd r with
      | nil => rename_i hne; rw [htr] at hne; simp at hne
      | cons d t =>
        obtain ⟨t', ht'⟩ := trimEnd_head r d t htr
        simp only [noTwoWS, Bool.and_eq_true]
        refine ⟨?_, by rw [← htr]; exact ih (noTwoWS_tail h)⟩
        rw [ht'] at h
        exact noTwoWS_pair h

theorem trimEnd_getLast_not_ws : ∀ (l : List Char) (e : Char),
    (trimEnd l).getLast? = some e → isWS e = false := by
  intro l
  induction l with
  | nil => intro e h; simp [trimEnd] at h
  | cons c r ih =>
    intro e h
    simp only [trimEnd] at h
    split at h
    · split at h
      · simp at h
      · rename_i hc
        simp only [List.getLast?_singleton, Option.some.injEq] at h
        subst h
        simpa using hc
    · cases htr : trimEnd r with
      | nil => rename_i hne; rw [htr] at hne; simp at hne
      | cons d t =>
        rw [htr, List.getLast?_cons_cons] at h
        exact ih e (htr ▸ h)

theorem noTwoWS_normalizeWS (s : List Char) : noTwoWS (normalizeWS s) = true :=
  noTwoWS_trimEnd _ (noTwoWS_dropWhile isWS _ (noTwoWS_collapseWSF s.length s))

theorem normalizeWS_head_not_ws (s : List Char) (c : Char)
    (h : (normalizeWS s).head? = some c) : isWS c = false := by
  unfold normalizeWS at h
  cases hl : trimEnd ((collapseWSF s.length s).dropWhile isWS) with
  | nil => rw [hl] at h; cases h
  | cons d t =>
    rw [hl] at h
    obtain rfl : d = c := by simpa using h
    obtain ⟨t', ht'⟩ := trimEnd_head _ _ _ hl
    exact dropWhile_head_false isWS _ _ _ ht'

theorem normalizeWS_getLast_not_ws (s : List Char) (c : Char)
    (h : (normalizeWS s).getLast? = some c) : isWS c = false :=
  trimEnd_getLast_not_ws _ c h

set_option maxRecDepth 40000

/-- **C2.** For every input text, if the sanitizer accepts it (returns a
cleaned text rather than `null`), the cleaned text is at least 50 characters
long, measured after all cleaning transforms. -/
theorem cleanAndValidateText_accepted_min_length (text clean : List Char)
    (h : cleanAndValidateText text = some clean) : 50 ≤ clean.length := by
  unfold cleanAndValidateText at h
  split at h
  · cases h
  · split at h
    · cases h
    · split at h
      · cases h
      · rename_i hlen
        have h2 : cleanedText text = clean := by injection h
        subst h2
        omega

/-- Witness for C2: a plain clinical sentence is accepted unchanged and its
length is at least 50. -/
theorem cleanAndValidateText_accepted_min_length_witness :
    cleanAndValidateText "Patient presents with uncontrolled diabetes and hypertension.".data =
      some "Patient presents with uncontrolled diabetes and hypertension.".data ∧
    50 ≤ "Patient presents with uncontrolled diabetes and hypertension.".data.length :=
  ⟨by decide,
    cleanAndValidateText_accepted_min_length
      "Patient presents with uncontrolled diabetes and hypertension.".data _ (by decide)⟩

/-- **C3 (amended).** Every input whose markup-stripped content contains the
exact marker "Okay, here is a medical note template for a patient" is
rejected outright by the robust sanitizer of `extract-and-clean-to-text.js`,
regardless of length or remaining content (it is either caught by the
pre-length gate or by the pure-template marker check); the master-variant
sanitizer does not check this marker and can accept such a note (see the
counterexample). -/
theorem marker_always_rejected (text : List Char)
    (h : containsLit false "Okay, here is a medical note template for a patient".data
        (stripMarkup text) = true) :
    cleanAndValidateText text = none := by
  unfold cleanAndValidateText
  split
  · rfl
  · split
    · rfl
    · rename_i hm
      exfalso
      apply hm
      simp only [templateMarkers, List.any_cons, List.any_nil, Bool.or_eq_true]
      exact Or.inr (Or.inr (Or.inl h))

/-- Witness for C3: a long, otherwise clinical note containing the marker is
rejected. -/
theorem marker_always_rejected_witness :
    containsLit false "Okay, here is a medical note template for a patient".data
      (stripMarkup
        "Okay, here is a medical note template for a patient with diabetes mellitus and extensive history.".data) =
      true ∧
    cleanAndValidateText
      "Okay, here is a medical note template for a patient with diabetes mellitus and extensive history.".data =
      none :=
  ⟨by decide, marker_always_rejected _ (by decide)⟩

/-- **C3 counterexample.** The master-variant sanitizer
(`extract-clinical-notes-master.js`) does not list the marker among its
template markers: a 98-character note containing it passes every one of its
stages and is accepted unchanged, so the claim is false for that cited
implementation. -/
theorem masterSanitizer_accepts_marker_note :
    containsLit false "Okay, here is a medical note template for a patient".data
      (stripMarkup
        "Okay, here is a medical note template for a patient with diabetes mellitus and extensive history.".data) =
      true ∧
    (cleanAndValidateTextMaster
        "Okay, here is a medical note template for a patient with diabetes mellitus and extensive history.".data).valid =
      true ∧
    (cleanAndValidateTextMaster
        "Okay, here is a medical note template for a patient with diabetes mellitus and extensive history.".data).text =
      some
        "Okay, here is a medical note template for a patient with diabetes mellitus and extensive history.".data :=
  ⟨by decide, by decide, by decide⟩

/-- **C8 (amended).** The robust sanitizer (`extract-and-clean-to-text.js`)
rejects the input consisting exactly of
"Reason for Visit: General examination of patient for ." : its junk-phrase
rule erases the whole sentence, the cleaned text collapses to the empty
string, and the 50-character post-clean gate fires; the master-variant
sanitizer accepts the same input (see the counterexample). -/
theorem boilerplate_only_note_rejected :
    cleanAndValidateText "Reason for Visit: General examination of patient for .".data = none ∧
    (cleanedText "Reason for Visit: General examination of patient for .".data).length < 50 :=
  ⟨by decide, by decide⟩

/-- **C8 counterexample.** The master-variant sanitizer accepts the exact
54-character input unchanged: it has no junk-phrase rule, its empty-field
pattern `([A-Z][a-z\s]+):\s*\.` does not match anywhere in the input (from
`R` the class run stops at the uppercase `V` of "Visit" with no colon next,
and after either colonless start the colon is followed by text, not a
period), and the surviving 54 characters pass the 50-character post-clean
gate. -/
theorem masterSanitizer_accepts_boilerplate :
    (cleanAndValidateTextMaster
        "Reason for Visit: General examination of patient for .".data).valid = true ∧
    (cleanAndValidateTextMaster
        "Reason for Visit: General examination of patient for .".data).text =
      some "Reason for Visit: General examination of patient for .".data :=
  ⟨by decide, by decide⟩

/-- **C9 counterexample.** The sanitizer accepts this input unchanged: the
lone newline survives `replace(/\s\s+/g, ' ')` (which only rewrites runs of
at least two whitespace characters), so an accepted cleaned text can contain
a maximal whitespace run that is a newline rather than a single space,
contradicting the claim that every maximal whitespace run of an accepted
cleaned text is a single space character. -/
theorem clean_text_single_newline_survives :
    cleanAndValidateText
        "The wound on the left forearm is healing well and\nshows no sign of infection at present.".data =
      some
        "The wound on the left forearm is healing well and\nshows no sign of infection at present.".data ∧
    '\n' ∈
      "The wound on the left forearm is healing well and\nshows no sign of infection at present.".data ∧
    isWS '\n' = true ∧ '\n' ≠ ' ' :=
  ⟨by decide, by decide, by decide, by decide⟩

/-- The cleaned text always ends with the whitespace normalization, so it has
no adjacent whitespace pair and no whitespace at either end. -/
theorem cleanedText_whitespace (l : List Char) :
    noTwoWS (cleanedText l) = true ∧
    (∀ c, (cleanedText l).head? = some c → isWS c = false) ∧
    (∀ c, (cleanedText l).getLast? = some c → isWS c = false) := by
  unfold cleanedText
  exact ⟨noTwoWS_normalizeWS _, fun c hc => normalizeWS_head_not_ws _ c hc,
    fun c hc => normalizeWS_getLast_not_ws _ c hc⟩

/-- **C9 (amended).** For every accepted note, the cleaned text the sanitizer
returns contains no run of two or more consecutive whitespace characters and
has no leading or trailing whitespace (whitespace normalization is the last
textual transform applied); however an isolated single non-space whitespace
character (such as a lone newline) may survive, since the collapse rule
`/\s\s+/g` only rewrites runs of length at least two. -/
theorem cleanAndValidateText_accepted_whitespace (text clean : List Char)
    (h : cleanAndValidateText text = some clean) :
    noTwoWS clean = true ∧
    (∀ c, clean.head? = some c → isWS c = false) ∧
    (∀ c, clean.getLast? = some c → isWS c = false) := by
  unfold cleanAndValidateText at h
  split at h
  · cases h
  · split at h
    · cases h
    · split at h
      · cases h
      · have h2 : cleanedText text = clean := by injection h
        subst h2
        exact cleanedText_whitespace text

/-- Witness for the amended C9, applied to the accepted note of the
counterexample. -/
theorem cleanAndValidateText_accepted_whitespace_witness :
    noTwoWS
      "The wound on the left forearm is healing well and\nshows no sign of infection at present.".data =
      true ∧
    (∀ c,
      "The wound on the left forearm is healing well and\nshows no sign of infection at present.".data.head? =
        some c → isWS c = false) ∧
    (∀ c,
      "The wound on the left forearm is healing well and\nshows no sign of infection at present.".data.getLast? =
        some c → isWS c = false) :=
  cleanAndValidateText_accepted_whitespace
    "The wound on the left forearm is healing well and\nshows no sign of infection at present.".data
    _ (by decide)

/-! ## FHIR extraction

Sources: `extractNotesDataFromFHIR` (`scripts/extract-and-clean-to-text.js`)
and `extractClinicalNotesFromFHIR` (`lib/fhir-extraction`).  FHIR resources
are modelled as one record carrying the fields the two extractors read
(absent JSON fields are `none`/`[]`); JS truthiness of strings (empty string
is falsy) is modelled by `jsOr`/`jsOrD`.  The per-resource `try`/`catch` of
both extractors is vacuous in the embedding (all field accesses are total). -/

/-- JS `a || b` on possibly-absent strings (empty string is falsy). -/
def jsOr (a b : Option String) : Option String :=
  match a with
  | some s => if s == "" then b else some s
  | none => b

/-- JS `a || d` with a string default. -/
def jsOrD (a : Option String) (d : String) : String :=
  match a with
  | some s => if s == "" then d else s
  | none => d

/-- Base64 alphabet value.  Node's `Buffer.from(s, 'base64')` skips characters
outside the alphabet (including `=` padding); this models that by filtering. -/
def b64Val (c : Char) : Option Nat :=
  if 'A' ≤ c ∧ c ≤ 'Z' then some (c.toNat - 65)
  else if 'a' ≤ c ∧ c ≤ 'z' then some (c.toNat - 97 + 26)
  else if '0' ≤ c ∧ c ≤ '9' then some (c.toNat - 48 + 52)
  else if c = '+' then some 62
  else if c = '/' then some 63
  else none

/-- Base64 6-bit groups to bytes (a trailing group of one value is dropped,
as Node does). -/
def b64Bytes : List Nat → List Nat
  | a :: b :: c :: d :: rest =>
    (a * 4 + b / 16) :: ((b % 16) * 16 + c / 4) :: ((c % 4) * 64 + d) :: b64Bytes rest
  | [a, b] => [a * 4 + b / 16]
  | [a, b, c] => [a * 4 + b / 16, (b % 16) * 16 + c / 4]
  | _ => []

/-- UTF-8 byte decoding (models Node's `buffer.toString('utf-8')` on
well-formed input; malformed sequences yield the replacement character).
The fuel argument (one byte per step suffices) makes the recursion
structural. -/
def utf8DecodeF : Nat → List Nat → List Char
  | 0, _ => []
  | _ + 1, [] => []
  | fuel + 1, b :: rest =>
    if b < 128 then Char.ofNat b :: utf8DecodeF fuel rest
    else if 192 ≤ b ∧ b < 224 then
      match rest with
      | b2 :: rest2 =>
        if 128 ≤ b2 ∧ b2 < 192 then
          Char.ofNat ((b - 192) * 64 + (b2 - 128)) :: utf8DecodeF fuel rest2
        else '�' :: utf8DecodeF fuel rest
      | [] => ['�']
    else if 224 ≤ b ∧ b < 240 then
      match rest with
      | b2 :: b3 :: rest3 =>
        if 128 ≤ b2 ∧ b2 < 192 ∧ 128 ≤ b3 ∧ b3 < 192 then
          Char.ofNat ((b - 224) * 4096 + (b2 - 128) * 64 + (b3 - 128)) ::
            utf8DecodeF fuel rest3
        else '�' :: utf8DecodeF fuel rest
      | _ => ['�']
    else if 240 ≤ b ∧ b < 248 then
      match rest with
      | b2 :: b3 :: b4 :: rest4 =>
        if 128 ≤ b2 ∧ b2 < 192 ∧ 128 ≤ b3 ∧ b3 < 192 ∧ 128 ≤ b4 ∧ b4 < 192 then
          Char.ofNat
              ((b - 240) * 262144 + (b2 - 128) * 4096 + (b3 - 128) * 64 + (b4 - 128)) ::
            utf8DecodeF fuel rest4
        else '�' :: utf8DecodeF fuel rest
      | _ => ['�']
    else '�' :: utf8DecodeF fuel rest

/-- `Buffer.from(s, 'base64').toString('utf-8')`. -/
def decodeBase64Utf8 (s : String) : String :=
  let bytes := b64Bytes (s.data.filterMap b64Val)
  String.mk (utf8DecodeF bytes.length bytes)

/-- An author/performer entry: `display` and `reference` fields. -/
structure AuthorRef where
  display : Option String := none
  reference : Option String := none
deriving DecidableEq

/-- `content[i].attachment` of a document-reference resource. -/
structure Attachment where
  data : Option String := none
  url : Option String := none
deriving DecidableEq

/-- One element of a diagnostic report's `result` array. -/
structure DiagResultRef where
  display : Option String := none
  codeText : Option String := none
  reference : Option String := none
deriving DecidableEq

/-- A FHIR resource, restricted to the fields the extractors read. -/
structure FHIRResource where
  resourceType : String
  id : Option String := none
  subjectReference : Option String := none
  date : Option String := none
  created : Option String := none
  authors : List AuthorRef := []
  custodianDisplay : Option String := none
  contents : List Attachment := []
  typeCodingDisplay : Option String := none
  typeText : Option String := none
  textDiv : Option String := none
  noteTexts : List String := []
  effectiveDateTime : Option String := none
  issued : Option String := none
  codeText : Option String := none
  performers : List AuthorRef := []
  performingOrganizationDisplay : Option String := none
  conclusion : Option String := none
  results : List DiagResultRef := []
deriving DecidableEq

structure BundleEntry where
  resource : FHIRResource
deriving DecidableEq

structure FHIRBundle where
  entry : Option (List BundleEntry) := none
deriving DecidableEq

/-- Note metadata collected by the script extractor. -/
structure NoteMetadata where
  note_id : String
  patient_id : Option String
  source_file : String
  note_date : Option String
  note_type : String
  provider : String
deriving DecidableEq

/-- Clean note plus metadata, the output unit of the script extractor. -/
structure NoteData where
  cleanText : List Char
  metadata : NoteMetadata
deriving DecidableEq

/-- Per-entry step of `extractNotesDataFromFHIR` : per-kind raw-text location
and metadata, then `cleanAndValidateText`; resources with no resolvable or no
valid text yield nothing. -/
def extractEntryNote (patientId : Option String) (fileName : String)
    (resource : FHIRResource) : Option NoteData :=
  let base : NoteMetadata :=
    { note_id := jsOrD resource.id "unknown-id"
      patient_id := patientId
      source_file := fileName
      note_date := some "unknown-date"
      note_type := "Unknown"
      provider := "Unknown" }
  let step : Option String × NoteMetadata :=
    if resource.resourceType == "DocumentReference" then
      let md := { base with
        note_date := resource.date
        note_type := jsOrD resource.typeText "DocumentReference"
        provider := jsOrD (resource.authors.head?.bind AuthorRef.display) "Unknown" }
      let text : Option String :=
        match resource.contents.head? with
        | some att =>
          match att.data with
          | some d => if d == "" then none else some (decodeBase64Utf8 d)
          | none => none
        | none => none
      (text, md)
    else if resource.resourceType == "DiagnosticReport" then
      let md := { base with
        note_date := jsOr resource.effectiveDateTime resource.issued
        note_type := jsOrD resource.codeText "DiagnosticReport"
        provider := jsOrD (resource.performers.head?.bind AuthorRef.display) "Unknown" }
      let text : Option String :=
        match resource.textDiv with
        | some d => if d == "" then none else some d
        | none => none
      (text, md)
    else if resource.resourceType == "Observation" then
      if resource.noteTexts.isEmpty then (none, base)
      else
        let md := { base with
          note_date := jsOr resource.effectiveDateTime resource.issued
          note_type := jsOrD resource.codeText "Observation Note"
          provider := jsOrD (resource.performers.head?.bind AuthorRef.display) "Unknown" }
        (some (String.intercalate "\n" resource.noteTexts), md)
    else (none, base)
  match step.1 with
  | none => none
  | some t =>
    match cleanAndValidateText t.data with
    | some clean => some { cleanText := clean, metadata := step.2 }
    | none => none

/-- `extractNotesDataFromFHIR` (`extract-and-clean-to-text.js`): bail out on a
missing `entry` array, locate the Patient resource (no Patient means no
output), then scan every entry in order. -/
def extractNotesDataFromFHIR (bundle : FHIRBundle) (fileName : String) : List NoteData :=
  match bundle.entry with
  | none => []
  | some entries =>
    match entries.find? (fun e => e.resource.resourceType == "Patient") with
    | none => []
    | some pe =>
      entries.filterMap (fun e => extractEntryNote pe.resource.id fileName e.resource)

/-- Output unit of the library extractor (`lib/fhir-extraction`). -/
structure ClinicalNote where
  id : String
  patientId : String
  date : String
  doctor : String
  organization : String
  content : String
  fileName : String
  noteType : String
deriving DecidableEq

/-- First occurrence of a literal removed (JS `String.replace` with a string
pattern and empty replacement). -/
def replaceFirstL (pat : List Char) : List Char → List Char
  | [] => []
  | c :: rest =>
    if isPrefixCI false pat (c :: rest) then (c :: rest).drop pat.length
    else c :: replaceFirstL pat rest

/-- `subject.reference.replace('urn:uuid:', '').replace('Patient/', '')`. -/
def stripPatientPrefix (ref : String) : String :=
  String.mk (replaceFirstL "Patient/".data (replaceFirstL "urn:uuid:".data ref.data))

/-- The author/performer display logic of the library extractor: the first
entry's `display`, else `Practitioner <id>` from a `Practitioner/` reference,
else "Unknown Provider". -/
def refDoctor (xs : List AuthorRef) : String :=
  match xs.head? with
  | none => "Unknown Provider"
  | some a =>
    match jsOr a.display none with
    | some d => d
    | none =>
      match a.reference with
      | some r =>
        if containsLit false "Practitioner/".data r.data then
          "Practitioner " ++ ((r.splitOn "/").getD 1 "")
        else "Unknown Provider"
      | none => "Unknown Provider"

/-- One `result` entry formatted: `display`, else `code.text`, else
`[Result: <reference>]` (an absent reference prints as `undefined`). -/
def diagResultStr (res : DiagResultRef) : String :=
  jsOrD res.display
    (jsOrD res.codeText ("[Result: " ++ res.reference.getD "undefined" ++ "]"))

/-- The DocumentReference branch of `extractClinicalNotesFromFHIR`.  `now`
models `new Date().toISOString()`; `idx` is `notes.length` at push time. -/
def docRefNote (now fileName : String) (idx : Nat) (r : FHIRResource) :
    Option ClinicalNote :=
  let patientId := stripPatientPrefix (r.subjectReference.getD "")
  let date := jsOrD (jsOr r.date r.created) now
  let doctor := refDoctor r.authors
  let organization := jsOrD r.custodianDisplay ""
  let content : String :=
    match r.contents.head? with
    | some att =>
      match jsOr att.data none with
      | some d => decodeBase64Utf8 d
      | none =>
        match jsOr att.url none with
        | some u => "[Document URL: " ++ u ++ "]"
        | none => ""
    | none => ""
  let noteType := jsOrD (jsOr r.typeCodingDisplay r.typeText) "Clinical Note"
  if (jsTrim content.data).isEmpty then none
  else some
    { id := jsOrD r.id ("note-" ++ toString idx)
      patientId := patientId
      date := date
      doctor := doctor
      organization := organization
      content := content
      fileName := fileName
      noteType := noteType }

/-- The DiagnosticReport branch of `extractClinicalNotesFromFHIR`. -/
def diagReportNote (now fileName : String) (idx : Nat) (r : FHIRResource) :
    Option ClinicalNote :=
  let patientId := stripPatientPrefix (r.subjectReference.getD "")
  let date := jsOrD (jsOr r.effectiveDateTime r.issued) now
  let doctor := refDoctor r.performers
  let organization := jsOrD r.performingOrganizationDisplay ""
  let base : String := jsOrD r.conclusion ""
  let content : String :=
    if r.results.isEmpty then base
    else base ++ "\n\nResults:\n" ++ String.intercalate "\n" (r.results.map diagResultStr)
  if (jsTrim content.data).isEmpty then none
  else some
    { id := jsOrD r.id ("report-" ++ toString idx)
      patientId := patientId
      date := date
      doctor := doctor
      organization := organization
      content := content
      fileName := fileName
      noteType := "Diagnostic Report" }

/-- `extractClinicalNotesFromFHIR` (`lib/fhir-extraction`): scans every entry,
collecting notes from DocumentReference and DiagnosticReport resources.  It
never looks for a Patient resource: each note's subject comes from the
resource's own `subject.reference` (empty when absent). -/
def extractClinicalNotesFromFHIR (now : String) (bundle : FHIRBundle)
    (fileName : String) : List ClinicalNote :=
  match bundle.entry with
  | none => []
  | some entries =>
    entries.foldl (fun notes entry =>
      let notes :=
        if entry.resource.resourceType == "DocumentReference" then
          match docRefNote now fileName notes.length entry.resource with
          | some n => notes ++ [n]
          | none => notes
        else notes
      if entry.resource.resourceType == "DiagnosticReport" then
        match diagReportNote now fileName notes.length entry.resource with
        | some n => notes ++ [n]
        | none => notes
      else notes) []

/-- **C4 (amended).** The script extractor `extractNotesDataFromFHIR` returns
an empty candidate list (and no error) for every bundle without a Patient
resource; the library extractor `extractClinicalNotesFromFHIR`, by contrast,
does not look for a Patient resource at all (see the counterexample). -/
theorem extractNotesDataFromFHIR_no_patient (bundle : FHIRBundle) (fileName : String)
    (h : ∀ es, bundle.entry = some es → ∀ e ∈ es, e.resource.resourceType ≠ "Patient") :
    extractNotesDataFromFHIR bundle fileName = [] := by
  unfold extractNotesDataFromFHIR
  cases hb : bundle.entry with
  | none => rfl
  | some es =>
    have hfind : es.find? (fun e => e.resource.resourceType == "Patient") = none := by
      apply List.find?_eq_none.mpr
      intro e he
      simpa using h es hb e he
    simp [hfind]

/-- The concrete Patient-less bundle used by the C4 witness. -/
def noPatientEntries : List BundleEntry :=
  [⟨{ resourceType := "DocumentReference",
      contents := [{ data := some "UGF0aWVudCBzdGFibGU=" }] }⟩]

def bundleNoPatient : FHIRBundle := ⟨some noPatientEntries⟩

/-- Witness for the amended C4: the script extractor yields nothing on a
Patient-less bundle that still contains a document with content. -/
theorem extractNotesDataFromFHIR_no_patient_witness :
    extractNotesDataFromFHIR bundleNoPatient "a.json" = [] :=
  extractNotesDataFromFHIR_no_patient bundleNoPatient "a.json" (by
    intro es hes e he
    have hes' : some noPatientEntries = some es := hes
    cases hes'
    simp only [noPatientEntries, List.mem_singleton] at he
    subst he
    decide)

/-- The concrete Patient-less bundle refuting C4 for the library extractor. -/
def diagOnlyEntries : List BundleEntry :=
  [⟨{ resourceType := "DiagnosticReport",
      conclusion := some "Patient stable, continue current regimen." }⟩]

def bundleDiagOnly : FHIRBundle := ⟨some diagOnlyEntries⟩

/-- **C4 counterexample.** A bundle with a single DiagnosticReport and no
Patient resource makes the library extractor `extractClinicalNotesFromFHIR`
emit one note (attributed to the empty subject id) instead of the empty list
the claim requires. -/
theorem extractClinicalNotesFromFHIR_no_patient_cex :
    diagOnlyEntries.all (fun e => !(e.resource.resourceType == "Patient")) = true ∧
    extractClinicalNotesFromFHIR "2024-01-01T00:00:00Z" bundleDiagOnly "f.json" ≠ [] ∧
    (extractClinicalNotesFromFHIR "2024-01-01T00:00:00Z" bundleDiagOnly "f.json").map
        ClinicalNote.patientId = [""] :=
  ⟨by decide, by decide, by decide⟩

/-! ## Embedding gateways

Sources: `getEmbedding` (ingestion scripts) and
`SupabaseVectorDB.createEmbedding` (`lib/supabase-vector`).  The external
provider is modelled by its successive call outcomes; embedding values are
rationals (no arithmetic on them is performed). -/

/-- Outcome of one provider call. -/
inductive ProviderResult where
  | ok (values : List ℚ)
  | err (message : String)
deriving DecidableEq

/-- `getEmbedding` (ingestion scripts): returns the provider's vector; on an
error whose message contains "429" it sleeps 5 s and retries (consuming the
next outcome of the stream); any other error yields `null` (`none`). -/
def getEmbedding : List ProviderResult → Option (List ℚ)
  | [] => none
  | r :: rest =>
    match r with
    | ProviderResult.ok v => some v
    | ProviderResult.err msg =>
      if containsLit false "429".data msg.data then getEmbedding rest
      else none

/-- `SupabaseVectorDB.createEmbedding` (`lib/supabase-vector`): a missing API
key or any provider error is caught, and a pseudo-random 768-dimension mock
vector (`Array(768).fill(0).map(() => Math.random() - 0.5)`) is returned
instead; `Math.random()` is modelled by the `rand` stream. -/
def createEmbedding (rand : Nat → ℚ) (apiKey : Option String)
    (provider : ProviderResult) : List ℚ :=
  let mock := (List.range 768).map (fun i => rand i - 1 / 2)
  match apiKey with
  | none => mock
  | some k =>
    if k == "" then mock
    else
      match provider with
      | ProviderResult.ok v => v
      | ProviderResult.err _ => mock

/-- **C6 (amended).** The ingestion-script gateway `getEmbedding` surfaces
every non-rate-limit provider error as a failed embedding (`null`), so its
caller can skip the chunk; the `SupabaseVectorDB.createEmbedding` gateway
does not — it silently substitutes a 768-dimension mock vector on any error
(see the counterexample). -/
theorem getEmbedding_surfaces_failure (msg : String) (rest : List ProviderResult)
    (h : containsLit false "429".data msg.data = false) :
    getEmbedding (ProviderResult.err msg :: rest) = none := by
  unfold getEmbedding
  simp [h]

/-- Witness for the amended C6 at a concrete non-429 error. -/
theorem getEmbedding_surfaces_failure_witness :
    containsLit false "429".data "500 Internal Server Error".data = false ∧
    getEmbedding [ProviderResult.err "500 Internal Server Error"] = none :=
  ⟨by decide, getEmbedding_surfaces_failure "500 Internal Server Error" [] (by decide)⟩

/-- **C6 counterexample.** On a provider error that is not a rate-limit
signal, `SupabaseVectorDB.createEmbedding` still hands the caller a full
768-dimension vector (the development mock) instead of a failed embedding. -/
theorem createEmbedding_masks_failure :
    containsLit false "429".data "500 Internal Server Error".data = false ∧
    (createEmbedding (fun _ => 1 / 2) (some "key")
        (ProviderResult.err "500 Internal Server Error")).length = 768 :=
  ⟨by decide, by decide⟩

/-! ## Vector store: similarity search and recency fallback

Sources: the SQL function `search_clinical_notes` and
`SupabaseVectorDB.searchSimilarNotes` (`lib/supabase-vector`).  The stored
table is a row list; the pgvector cosine-distance operator `<=>` against the
fixed query embedding is modelled by a per-row distance function `dist`, with
`similarity = 1 - dist` as in the SQL. -/

/-- A row of `clinical_notes_embeddings` (the embedding itself enters only
through `dist`). -/
structure NoteRow where
  patient_id : String
  note_id : String
  chunk_index : Nat
  content : String
  created_at : Nat
deriving DecidableEq

/-- The recency relation: later `created_at` first. -/
def byRecency (a b : NoteRow) : Prop := b.created_at ≤ a.created_at

instance : DecidableRel byRecency := fun _ _ => Nat.decLe _ _

/-- The fallback query of `searchSimilarNotes` :
`select * [eq patient_id] order by created_at desc limit n`. -/
def listRecent (db : List NoteRow) (patientId : Option String) (limit : Nat) :
    List NoteRow :=
  let inScope :=
    match patientId with
    | some p => db.filter (fun r => r.patient_id == p)
    | none => db
  (List.insertionSort byRecency inScope).take limit

/-- `SupabaseVectorDB.searchSimilarNotes` : the similarity RPC outcome is
supplied as an `Except` (`error` = Supabase error object, `ok` = the returned
rows, possibly `null`).  On an RPC error, the recency fallback query runs
with the same patient filter and limit; on success the rows (or `[]` for
`null`) are returned as they are.  The embedding step and the fallback read
are modelled as reliable (their failure paths end in `[]` via the outer
`catch` and are not exercised by the claims). -/
def searchSimilarNotes (db : List NoteRow) (rpc : Except String (Option (List NoteRow)))
    (patientId : Option String) (limit : Nat) : List NoteRow :=
  match rpc with
  | Except.error _ => listRecent db patientId limit
  | Except.ok d => d.getD []

/-- **C5 counterexample.** With one stored row, a similarity search that
succeeds with zero rows returns the empty list: the recency-ordered listing
is not substituted (the fallback only runs on an RPC error), contradicting
the claim for the "returns zero rows" case. -/
theorem searchSimilarNotes_empty_no_fallback :
    searchSimilarNotes
        [{ patient_id := "p1", note_id := "n1", chunk_index := 0,
           content := "c", created_at := 5 }]
        (Except.ok (some [])) none 5 = [] ∧
    listRecent
        [{ patient_id := "p1", note_id := "n1", chunk_index := 0,
           content := "c", created_at := 5 }] none 5 =
      [{ patient_id := "p1", note_id := "n1", chunk_index := 0,
         content := "c", created_at := 5 }] ∧
    searchSimilarNotes
        [{ patient_id := "p1", note_id := "n1", chunk_index := 0,
           content := "c", created_at := 5 }]
        (Except.ok (some [])) none 5 ≠
      listRecent
        [{ patient_id := "p1", note_id := "n1", chunk_index := 0,
           content := "c", created_at := 5 }] none 5 :=
  ⟨by decide, by decide, by decide⟩

/-- **C5 (amended).** The retrieval wrapper substitutes the recency-ordered
listing (same subject filter and limit) exactly when the similarity RPC
errors, and the error is never surfaced (the caller always receives a plain
row list); when the RPC succeeds its rows are returned as-is — in particular
a successful search with zero rows yields the empty list, not the fallback
listing. -/
theorem searchSimilarNotes_fallback_on_error_only :
    (∀ (db : List NoteRow) (e : String) (patientId : Option String) (limit : Nat),
      searchSimilarNotes db (Except.error e) patientId limit =
        listRecent db patientId limit) ∧
    (∀ (db rows : List NoteRow) (patientId : Option String) (limit : Nat),
      searchSimilarNotes db (Except.ok (some rows)) patientId limit = rows) :=
  ⟨fun _ _ _ _ => rfl, fun _ _ _ _ => rfl⟩

/-- The SQL function `search_clinical_notes` (Supabase, pgvector): select
rows with `1 - (embedding <=> query) > similarity_threshold`, optionally
filtered to one patient, ordered by ascending cosine distance (= descending
similarity), limited to `match_count`, each row returned with its computed
similarity. -/
def eligRow (dist : NoteRow → ℚ) (threshold : ℚ) (patientFilter : Option String)
    (r : NoteRow) : Bool :=
  decide (threshold < 1 - dist r) &&
  (match patientFilter with
   | none => true
   | some p => r.patient_id == p)

def search_clinical_notes (db : List NoteRow) (dist : NoteRow → ℚ)
    (matchCount : Nat) (threshold : ℚ) (patientFilter : Option String) :
    List (NoteRow × ℚ) :=
  let eligible := db.filter (eligRow dist threshold patientFilter)
  ((List.insertionSort (fun a b => dist a ≤ dist b) eligible).take matchCount).map
    (fun r => (r, 1 - dist r))

/-- **C7.** For every stored-row set, distance function (the external
`<=>`), limit, threshold and optional subject filter, the similarity search
returns only stored rows, each with its similarity `1 - dist` strictly above
the threshold, restricted to the given subject when a filter is supplied,
ordered by descending similarity, and containing at most `limit` rows. -/
theorem search_clinical_notes_contract (db : List NoteRow) (dist : NoteRow → ℚ)
    (matchCount : Nat) (threshold : ℚ) (patientFilter : Option String) :
    (∀ pr ∈ search_clinical_notes db dist matchCount threshold patientFilter,
      pr.2 = 1 - dist pr.1 ∧ threshold < pr.2 ∧ pr.1 ∈ db ∧
      ∀ p, patientFilter = some p → pr.1.patient_id = p) ∧
    (search_clinical_notes db dist matchCount threshold patientFilter).Pairwise
      (fun a b => b.2 ≤ a.2) ∧
    (search_clinical_notes db dist matchCount threshold patientFilter).length ≤
      matchCount := by
  haveI ht : IsTotal NoteRow (fun a b => dist a ≤ dist b) := ⟨fun a b => le_total _ _⟩
  haveI htr : IsTrans NoteRow (fun a b => dist a ≤ dist b) :=
    ⟨fun _ _ _ hab hbc => le_trans hab hbc⟩
  unfold search_clinical_notes
  refine ⟨?_, ?_, ?_⟩
  · intro pr hpr
    obtain ⟨r, hr, rfl⟩ := List.mem_map.mp hpr
    have hr1 : r ∈ List.insertionSort (fun a b => dist a ≤ dist b)
        (db.filter (eligRow dist threshold patientFilter)) := List.mem_of_mem_take hr
    obtain ⟨hdb, hcond⟩ := List.mem_filter.mp ((List.perm_insertionSort _ _).mem_iff.mp hr1)
    simp only [eligRow, Bool.and_eq_true, decide_eq_true_eq] at hcond
    refine ⟨rfl, hcond.1, hdb, ?_⟩
    intro p hp
    have h2 := hcond.2
    rw [hp] at h2
    simpa using h2
  · rw [List.pairwise_map]
    have hsorted : (List.insertionSort (fun a b => dist a ≤ dist b)
        (db.filter (eligRow dist threshold patientFilter))).Pairwise
        (fun a b => dist a ≤ dist b) :=
      List.sorted_insertionSort _ _
    exact ((hsorted.sublist (List.take_sublist _ _)).imp
      (fun hab => by simpa using sub_le_sub_left hab 1))
  · rw [List.length_map, List.length_take]
    exact Nat.min_le_left _ _

end NoteAnalysis
